import Mathlib

/-!
# Verification of the passlane/genpass local credential store

Shallow embedding of `src/store.rs` and `src/actions.rs`.  Filesystem state
(the `.passlane` directory) is made explicit as a `FS` record; the stateful
Rust functions become pure functions `FS → result × FS`.

The symmetric record crypto (`crate::password`, not under `src/`) and the
bcrypt primitives (external `pwhash` crate) are modelled symbolically,
following the contracts of the spec (§4.1, §8): encryption keeps `service` and
`username` in the clear, replaces `password` by an opaque ciphertext, and
decryption under the wrong passphrase is detected and fails rather than
returning garbage.
-/

deriving instance DecidableEq for Except

namespace Genpass

/-- Modelled from the spec: a `CredentialRecord` is a
`service`/`username`/`password` triple (§3); the concrete struct lives in
`crate::password` which is not under `src/`. -/
structure Credentials where
  service : String
  username : String
  password : String
deriving DecidableEq, Repr

/-- Modelled from the spec: an opaque authenticated ciphertext.  `key` is the
passphrase the plaintext was encrypted under; decryption under any other
passphrase fails (§4.1: wrong-key decryption must be detectable).  The
per-call nonce is omitted: no claim depends on it. -/
inductive Cipher where
  | enc (key : String) (plain : String)
deriving DecidableEq, Repr

/-- Modelled from the spec: `EncryptedCredentialRecord` — same shape as
`CredentialRecord` with `password` replaced by ciphertext (§3). -/
structure EncCredentials where
  service : String
  username : String
  cipher : Cipher
deriving DecidableEq, Repr

/-- Decryption failure, the `DecryptError` / `WrongPassphrase` of the spec (§4.1,
§4.3). -/
inductive CryptoErr where
  | wrongPassphrase
deriving DecidableEq, Repr

/-- Modelled from the spec: `encrypt(record, passphrase)` encrypts only the
`password` field; `service`/`username` stay searchable plaintext (§4.1). -/
def Credentials.encrypt (c : Credentials) (passphrase : String) : EncCredentials :=
  { service := c.service, username := c.username,
    cipher := Cipher.enc passphrase c.password }

/-- Modelled from the spec: `decrypt(encryptedRecord, passphrase)` recovers the
record when the passphrase matches and fails with `DecryptError` otherwise
(§4.1). -/
def EncCredentials.decrypt (e : EncCredentials) (passphrase : String) :
    Except CryptoErr Credentials :=
  match e.cipher with
  | Cipher.enc key plain =>
    if key = passphrase then
      Except.ok { service := e.service, username := e.username, password := plain }
    else
      Except.error CryptoErr.wrongPassphrase

/-- The bcrypt hash stored in `.master_pwd`.  `pwhash::bcrypt` is an external
crate; it is modelled ideally (spec §8: `verify_passphrase(P, hash_passphrase(P))`
holds and fails for any other passphrase). -/
inductive BcryptHash where
  | hashOf (passphrase : String)
deriving DecidableEq, Repr

/-- Ideal model of `bcrypt::verify` (external crate, see `BcryptHash`). -/
def bcryptVerify (passphrase : String) (h : BcryptHash) : Bool :=
  match h with
  | BcryptHash.hashOf p => p = passphrase

/-- `chrono::Duration`, reduced to its `num_seconds()` value, the only part
`store.rs` serializes and parses. -/
structure Duration where
  secs : Int
deriving DecidableEq, Repr

/-- Modelled from the spec: `AccessToken` record (§3); the concrete struct
lives in `crate::auth` which is not under `src/`.  `created_timestamp` is kept
as the raw string `store.rs` reads and writes. -/
structure AccessTokens where
  access_token : String
  refresh_token : Option String
  expires_in : Option Duration
  created_timestamp : String
deriving DecidableEq, Repr

/-- The `.passlane` directory made explicit: `.store` (the CSV of encrypted
records, as typed records — CSV row mechanics are out of scope per spec §1),
`.store_new` (the rotation temp file), `.master_pwd` (the bcrypt hash) and
`.access_token` (raw file contents, one `Char` per byte).  `none` means the
file does not exist. -/
structure FS where
  store : List EncCredentials
  storeNew : Option (List EncCredentials)
  masterHash : Option BcryptHash
  token : Option String
deriving DecidableEq, Repr

/-- `store::has_logged_in` (src/store.rs:158): the access-token file exists. -/
def has_logged_in (fs : FS) : Bool :=
  fs.token.isSome

/-- `store::save_master_password` (src/store.rs:63): overwrite `.master_pwd`
with the bcrypt hash of the passphrase. -/
def save_master_password (pwd : String) (fs : FS) : FS :=
  { fs with masterHash := some (BcryptHash.hashOf pwd) }

/-- `store::verify_master_password` (src/store.rs:46).  `retyped` is the answer
the `ask_password` UI collaborator returns for the re-entry prompt (`crate::ui`
is not under `src/`; the spec treats it as an external capability, §6); the
source only issues that prompt in the uninitialized, `store_if_new` branch. -/
def verify_master_password (master_pwd : String) (store_if_new : Bool)
    (retyped : String) (fs : FS) : Except String Bool × FS :=
  match fs.masterHash with
  | some h =>
    if bcryptVerify master_pwd h then (Except.ok true, fs)
    else (Except.error "Incorrect password", fs)
  | none =>
    if store_if_new then
      if master_pwd = retyped then
        (Except.ok true, save_master_password master_pwd fs)
      else
        (Except.error "Passwords did not match", fs)
    else
      (Except.ok true, fs)

/-- Observable state-changing events of a rotation run, in execution order:
one `writeTemp` per record appended to `.store_new`, `saveHash` for the
`save_master_password(new_password)` call, `renameStore` for the
`rename(.store_new, .store)` call. -/
inductive Ev where
  | writeTemp
  | saveHash
  | renameStore
deriving DecidableEq, Repr

/-- The record loop of `store::update_master_password` (src/store.rs:103-108):
decrypt each record with the old passphrase (`?` propagates the first
failure), re-encrypt with the new one and append to the temp file.  Returns
the loop status together with the records written to `.store_new` before the
loop stopped. -/
def rotateLoop (old_password new_password : String) :
    List EncCredentials → Except CryptoErr Unit × List EncCredentials
  | [] => (Except.ok (), [])
  | e :: rest =>
    match e.decrypt old_password with
    | Except.error er => (Except.error er, [])
    | Except.ok d =>
      let r := rotateLoop old_password new_password rest
      (r.1, d.encrypt new_password :: r.2)

/-- `store::update_master_password` (src/store.rs:96-113): stream the store
through decrypt-old/encrypt-new into `.store_new`; on success call
`save_master_password(new_password)` and only then rename `.store_new` over
`.store`.  On a decryption failure the `?` returns at once, leaving `.store`
and `.master_pwd` untouched and `.store_new` holding the partial prefix.
The third component is the event trace in execution order. -/
def update_master_password (old_password new_password : String) (fs : FS) :
    Except CryptoErr Bool × FS × List Ev :=
  let r := rotateLoop old_password new_password fs.store
  match r.1 with
  | Except.error er =>
    (Except.error er, { fs with storeNew := some r.2 },
     r.2.map fun _ => Ev.writeTemp)
  | Except.ok _ =>
    (Except.ok true,
     { fs with store := r.2, storeNew := none,
               masterHash := some (BcryptHash.hashOf new_password) },
     (r.2.map fun _ => Ev.writeTemp) ++ [Ev.saveHash, Ev.renameStore])

/-- Re-encryption of a single record, as the rotation loop performs it. -/
def reenc (old_password new_password : String) (e : EncCredentials) : EncCredentials :=
  match e.decrypt old_password with
  | Except.ok d => d.encrypt new_password
  | Except.error _ => e

/-- The claim C2 asserts about a trace: every `renameStore` event precedes
every `saveHash` event. -/
def renameBeforeHash (tr : List Ev) : Prop :=
  ∀ i j : Fin tr.length, tr.get i = Ev.renameStore → tr.get j = Ev.saveHash →
    (i : Nat) < (j : Nat)

instance (tr : List Ev) : Decidable (renameBeforeHash tr) := by
  unfold renameBeforeHash; infer_instance

/-- What the code actually does: every `saveHash` event precedes every
`renameStore` event. -/
def hashBeforeRename (tr : List Ev) : Prop :=
  ∀ i j : Fin tr.length, tr.get i = Ev.saveHash → tr.get j = Ev.renameStore →
    (i : Nat) < (j : Nat)

instance (tr : List Ev) : Decidable (hashBeforeRename tr) := by
  unfold hashBeforeRename; infer_instance

/-- Every record write to the temp file precedes every hash overwrite. -/
def writeTempsBeforeHash (tr : List Ev) : Prop :=
  ∀ i j : Fin tr.length, tr.get i = Ev.saveHash → tr.get j = Ev.writeTemp →
    (j : Nat) < (i : Nat)

/-! ## The access-token file

`store::store_access_token` and `store::get_access_token` work on the raw
bytes of `.access_token`; the embedding keeps the file contents as a `String`
(one `Char` per byte, all contents involved are ASCII) and translates the Rust
`split` on commas, the `i64` from-string parsing and the decimal rendering of
`i64` values into Lean functions over `List Char`. -/

/-- The Rust `split` on a comma: the empty string yields one empty field, a
trailing separator yields a trailing empty field. -/
def splitComma : List Char → List (List Char)
  | [] => [[]]
  | c :: rest =>
    if c = ',' then [] :: splitComma rest
    else
      match splitComma rest with
      | [] => [[c]]
      | p :: ps => (c :: p) :: ps

/-- `file_content.split(",")` on a `String`. -/
def splitCommaStr (s : String) : List String :=
  (splitComma s.data).map String.mk

/-- Decimal digit value of a char, `none` for non-digits. -/
def digitVal (c : Char) : Option Nat :=
  if '0' ≤ c ∧ c ≤ '9' then some (c.toNat - 48) else none

/-- Accumulating decimal parse; fails on the first non-digit. -/
def parseDigitsGo (acc : Nat) : List Char → Option Nat
  | [] => some acc
  | c :: cs =>
    match digitVal c with
    | some d => parseDigitsGo (acc * 10 + d) cs
    | none => none

/-- Parse a non-empty all-digit string. -/
def parseDigits : List Char → Option Nat
  | [] => none
  | c :: cs => parseDigitsGo 0 (c :: cs)

def i64MaxNat : Nat := 2 ^ 63 - 1

def i64MinAbs : Nat := 2 ^ 63

/-- The Rust `i64` from-string parse: optional single `+`/`-` sign, then a non-empty run
of decimal digits, rejected outside the `i64` range. -/
def parseI64 (s : String) : Option Int :=
  match s.data with
  | [] => none
  | c :: cs =>
    if c = '+' then
      (parseDigits cs).bind fun v =>
        if v ≤ i64MaxNat then some (Int.ofNat v) else none
    else if c = '-' then
      (parseDigits cs).bind fun v =>
        if v ≤ i64MinAbs then some (-(Int.ofNat v)) else none
    else
      (parseDigits (c :: cs)).bind fun v =>
        if v ≤ i64MaxNat then some (Int.ofNat v) else none

/-- The decimal digit character for `d < 10`. -/
def digitChar (d : Nat) : Char :=
  Char.ofNat (48 + d)

/-- Decimal rendering of a natural number, most significant digit first.
`fuel` bounds the recursion depth; `natDecimal` supplies enough. -/
def natDecimalGo : Nat → Nat → List Char
  | 0, _ => []
  | fuel + 1, n =>
    if n < 10 then [digitChar n]
    else natDecimalGo fuel (n / 10) ++ [digitChar (n % 10)]

/-- Decimal rendering of a natural number. -/
def natDecimal (n : Nat) : List Char :=
  natDecimalGo (n + 1) n

/-- The Rust decimal `Display` rendering of an `i64` value, as interpolated by
the formatting macros: minus sign followed by the decimal magnitude. -/
def intToDecimal (i : Int) : String :=
  if i < 0 then String.mk ('-' :: natDecimal i.natAbs)
  else String.mk (natDecimal i.toNat)

/-- The second field `store::store_access_token` writes: the refresh token, or
the empty string when absent (src/store.rs:142-146). -/
def refreshField (t : AccessTokens) : String :=
  match t.refresh_token with | some v => v | none => ""

/-- The third field `store::store_access_token` writes: `num_seconds()` of the
expiry duration, or `0` when absent (src/store.rs:147-151). -/
def expiresField (t : AccessTokens) : String :=
  intToDecimal (match t.expires_in with | some d => d.secs | none => 0)

/-- The string `store::store_access_token` (src/store.rs:139-153) writes:
`access_token,refresh_token-or-empty,expires_in-seconds-or-0,created_timestamp,`. -/
def serializeToken (t : AccessTokens) : String :=
  t.access_token ++ "," ++ refreshField t ++ "," ++ expiresField t ++ "," ++
    t.created_timestamp ++ ","

/-- Writing `newContent` at position 0 of a file opened with `write(true)`,
`append(false)` and no truncation (src/store.rs:129-135): bytes of a longer
previous content beyond `newContent` stay in place. -/
def writeOver (newContent : String) (old : Option String) : String :=
  match old with
  | none => newContent
  | some o => newContent ++ String.mk (o.data.drop newContent.data.length)

/-- `store::store_access_token` (src/store.rs:126-156).  I/O failures are out
of scope, so the `anyhow::Result<bool>` is always `Ok(true)` and the updated
state is the whole result. -/
def store_access_token (t : AccessTokens) (fs : FS) : FS :=
  { fs with token := some (writeOver (serializeToken t) fs.token) }

/-- Outcome of `store::get_access_token`: `Ok`, `Err`, or a Rust panic from
the unchecked `parts[2]` / `parts[3]` indexing. -/
inductive TokenReadResult where
  | ok (t : AccessTokens)
  | err (msg : String)
  | panicked
deriving DecidableEq, Repr

/-- `store::get_access_token` (src/store.rs:162-193): bail when the file is
absent; split the contents on `,`; `i64::from_str(parts[2])?` (panics when
there is no `parts[2]`, errors on a non-numeric field); build the token from
`parts[0]`, `parts[1]`, `parts[3]` (panicking when there is no `parts[3]`).
The function only reads, so no `FS` is returned. -/
def get_access_token (fs : FS) : TokenReadResult :=
  match fs.token with
  | none => TokenReadResult.err "Please login first with: passlane -l"
  | some content =>
    match splitCommaStr content with
    | p0 :: p1 :: p2 :: rest =>
      match parseI64 p2 with
      | none => TokenReadResult.err "invalid digit found in string"
      | some expires =>
        match rest with
        | p3 :: _ =>
          TokenReadResult.ok
            { access_token := p0
              refresh_token := if p1 ≠ "" then some p1 else none
              expires_in := if expires > 0 then some ⟨expires⟩ else none
              created_timestamp := p3 }
        | [] => TokenReadResult.panicked
    | _ => TokenReadResult.panicked

/-- Serialization-faithful tokens: the string fields are comma-free (the file
format is comma-separated with no escaping), the refresh token is not the
empty string (serialized as the absence marker) and the expiry is absent or a
positive number of seconds representable in an `i64` (zero is serialized as
the absence marker). -/
def wfToken (t : AccessTokens) : Bool :=
  t.access_token.data.all (· != ',') &&
  (match t.refresh_token with
   | none => true
   | some r => (r != "") && r.data.all (· != ','))  &&
  (match t.expires_in with
   | none => true
   | some d => decide (0 < d.secs) && decide (d.secs ≤ (i64MaxNat : Int))) &&
  t.created_timestamp.data.all (· != ',')

/-- Modelled from the spec: `is_expired() ⇔ expires_in present and
created_timestamp + expires_in <= now` (§3).  `AccessTokens::is_expired` lives
in `crate::auth`, not under `src/`; `tsVal` converts the stored timestamp
string to seconds and `now` is the current time in seconds. -/
def AccessTokens.is_expired (tsVal : String → Int) (now : Int)
    (t : AccessTokens) : Bool :=
  match t.expires_in with
  | some d => decide (tsVal t.created_timestamp + d.secs ≤ now)
  | none => false

/-- `actions::get_access_token` (src/actions.rs:18-42): bail when not logged
in; load the stored token (`?` propagates load errors, an indexing panic
propagates as a panic); when expired try `refreshFn` (the external
`auth::exchange_refresh_token` collaborator), store and return its token on
success, otherwise fall back to `loginFn` (`auth::login`), store and return
that token; when not expired return the loaded token without writing. -/
def get_access_token_action (tsVal : String → Int) (now : Int)
    (refreshFn : AccessTokens → Except String AccessTokens)
    (loginFn : Except String AccessTokens) (fs : FS) :
    TokenReadResult × FS :=
  if has_logged_in fs = false then
    (TokenReadResult.err
      "You are not logged in to the Passlane Online Vault. Please run `passlane -l` to login (or signup) first.",
     fs)
  else
    match get_access_token fs with
    | TokenReadResult.panicked => (TokenReadResult.panicked, fs)
    | TokenReadResult.err e => (TokenReadResult.err e, fs)
    | TokenReadResult.ok token =>
      if token.is_expired tsVal now then
        match refreshFn token with
        | Except.ok t => (TokenReadResult.ok t, store_access_token t fs)
        | Except.error _ =>
          match loginFn with
          | Except.ok t => (TokenReadResult.ok t, store_access_token t fs)
          | Except.error e => (TokenReadResult.err e, fs)
      else
        (TokenReadResult.ok token, fs)

/-- `actions::update_master_password` (src/actions.rs:390-402).  When logged
in, the token fetch, the remote `online_vault::update_master_password` call
and its count are collapsed into the external collaborator `onlineRotate`
(`crate::graphql` is not under `src/`); its error propagates via `?` and on
success `save_master_password(new_pwd)` runs.  When not logged in the local
`store::update_master_password` is called and its `Result` is DISCARDED
(src/actions.rs:399 drops the value), so this branch always returns
`Ok(true)`. -/
def actions_update_master_password
    (onlineRotate : String → String → Except CryptoErr Nat)
    (old_pwd new_pwd : String) (fs : FS) : Except CryptoErr Bool × FS :=
  if has_logged_in fs then
    match onlineRotate old_pwd new_pwd with
    | Except.ok _count => (Except.ok true, save_master_password new_pwd fs)
    | Except.error e => (Except.error e, fs)
  else
    let r := update_master_password old_pwd new_pwd fs
    (Except.ok true, r.2.1)

/-! ## String and decimal lemmas -/

theorem data_append (a b : String) : (a ++ b).data = a.data ++ b.data := rfl

theorem mk_data (s : String) : String.mk s.data = s := rfl

theorem splitComma_ne_nil (l : List Char) : splitComma l ≠ [] := by
  cases l with
  | nil => simp [splitComma]
  | cons c rest =>
    simp only [splitComma]
    split
    · simp
    · cases h : splitComma rest <;> simp

theorem splitComma_field (f r : List Char) (hf : ',' ∉ f) :
    splitComma (f ++ ',' :: r) = f :: splitComma r := by
  induction f with
  | nil => simp [splitComma]
  | cons c f ih =>
    have hc : c ≠ ',' := fun h => hf (h ▸ List.mem_cons_self c f)
    have hf' : ',' ∉ f := fun h => hf (List.mem_cons_of_mem c h)
    simp only [List.cons_append, splitComma, if_neg hc, List.append_eq, ih hf']

theorem digitVal_digitChar (d : Nat) (h : d < 10) :
    digitVal (digitChar d) = some d := by
  interval_cases d <;> decide

theorem digitChar_isDigit (d : Nat) (h : d < 10) :
    (digitChar d).isDigit = true := by
  interval_cases d <;> decide

theorem isDigit_ne_comma (c : Char) (h : c.isDigit = true) : c ≠ ',' := by
  intro he; subst he; simp at h

theorem isDigit_ne_plus (c : Char) (h : c.isDigit = true) : c ≠ '+' := by
  intro he; subst he; simp at h

theorem isDigit_ne_minus (c : Char) (h : c.isDigit = true) : c ≠ '-' := by
  intro he; subst he; simp at h

theorem mem_natDecimalGo_isDigit (fuel n : Nat) (c : Char)
    (h : c ∈ natDecimalGo fuel n) : c.isDigit = true := by
  induction fuel generalizing n with
  | zero => simp [natDecimalGo] at h
  | succ fuel ih =>
    simp only [natDecimalGo] at h
    split at h
    · next hn =>
      rcases List.mem_singleton.mp h with rfl
      exact digitChar_isDigit n hn
    · rcases List.mem_append.mp h with h1 | h1
      · exact ih _ h1
      · rcases List.mem_singleton.mp h1 with rfl
        exact digitChar_isDigit _ (Nat.mod_lt n (by norm_num))

theorem mem_natDecimal_isDigit (n : Nat) (c : Char) (h : c ∈ natDecimal n) :
    c.isDigit = true :=
  mem_natDecimalGo_isDigit (n + 1) n c h

theorem comma_not_mem_natDecimal (n : Nat) : ',' ∉ natDecimal n := fun h =>
  isDigit_ne_comma ',' (mem_natDecimal_isDigit n ',' h) rfl

theorem natDecimalGo_ne_nil (fuel n : Nat) : natDecimalGo (fuel + 1) n ≠ [] := by
  simp only [natDecimalGo]
  split
  · simp
  · simp

theorem natDecimal_ne_nil (n : Nat) : natDecimal n ≠ [] :=
  natDecimalGo_ne_nil n n

theorem parseDigitsGo_append (acc : Nat) (l₁ l₂ : List Char) :
    parseDigitsGo acc (l₁ ++ l₂) =
      (parseDigitsGo acc l₁).bind fun v => parseDigitsGo v l₂ := by
  induction l₁ generalizing acc with
  | nil => simp [parseDigitsGo]
  | cons c cs ih =>
    simp only [List.cons_append, parseDigitsGo]
    cases digitVal c with
    | none => simp
    | some d => simp [ih]

theorem parseDigitsGo_natDecimalGo (fuel : Nat) :
    ∀ n acc, n < 10 ^ fuel →
      parseDigitsGo acc (natDecimalGo fuel n) =
        some (acc * 10 ^ (natDecimalGo fuel n).length + n) := by
  induction fuel with
  | zero =>
    intro n acc h
    interval_cases n
    simp [natDecimalGo, parseDigitsGo]
  | succ fuel ih =>
    intro n acc h
    simp only [natDecimalGo]
    split
    · next hn =>
      simp [parseDigitsGo, digitVal_digitChar n hn]
    · next hn =>
      have hdiv : n / 10 < 10 ^ fuel := by
        rw [Nat.div_lt_iff_lt_mul (by norm_num)]
        calc n < 10 ^ (fuel + 1) := h
        _ = 10 ^ fuel * 10 := by rw [pow_succ]
      rw [parseDigitsGo_append, ih (n / 10) acc hdiv]
      simp only [Option.some_bind, parseDigitsGo,
        digitVal_digitChar (n % 10) (Nat.mod_lt n (by norm_num))]
      simp only [List.length_append, List.length_singleton, pow_succ, ← Nat.mul_assoc]
      congr 1
      omega

theorem parseDigits_natDecimal (n : Nat) : parseDigits (natDecimal n) = some n := by
  have hb : n < 10 ^ (n + 1) :=
    Nat.lt_of_lt_of_le (Nat.lt_pow_self (by norm_num) n)
      (Nat.pow_le_pow_right (by norm_num) (Nat.le_succ n))
  have hgo := parseDigitsGo_natDecimalGo (n + 1) n 0 hb
  cases hl : natDecimal n with
  | nil => exact absurd hl (natDecimal_ne_nil n)
  | cons c cs =>
    have : parseDigits (c :: cs) = parseDigitsGo 0 (c :: cs) := rfl
    rw [this, ← hl]
    unfold natDecimal
    rw [hgo]
    simp

theorem parseI64_natDecimal (n : Nat) (h : n ≤ i64MaxNat) :
    parseI64 (String.mk (natDecimal n)) = some (Int.ofNat n) := by
  cases hl : natDecimal n with
  | nil => exact absurd hl (natDecimal_ne_nil n)
  | cons c cs =>
    have hcd : c.isDigit = true := by
      apply mem_natDecimal_isDigit n
      rw [hl]; exact List.mem_cons_self c cs
    have hparse : parseDigits (c :: cs) = some n := by
      rw [← hl]; exact parseDigits_natDecimal n
    simp only [parseI64, hl, if_neg (isDigit_ne_plus c hcd),
      if_neg (isDigit_ne_minus c hcd), hparse, Option.some_bind]
    rw [if_pos h]

theorem comma_data : ("," : String).data = [','] := rfl

theorem comma_not_mem_intToDecimal (i : Int) : ',' ∉ (intToDecimal i).data := by
  unfold intToDecimal
  split
  · intro hm
    rcases List.mem_cons.mp hm with h | h
    · exact absurd h.symm (by decide)
    · exact comma_not_mem_natDecimal _ h
  · exact comma_not_mem_natDecimal _

theorem all_ne_comma {l : List Char} (h : l.all (· != ',') = true) : ',' ∉ l := by
  intro hm
  have := List.all_eq_true.mp h ',' hm
  simp at this

theorem splitComma_four (f0 f1 f2 f3 tl : List Char)
    (h0 : ',' ∉ f0) (h1 : ',' ∉ f1) (h2 : ',' ∉ f2) (h3 : ',' ∉ f3) :
    splitComma (f0 ++ ',' :: (f1 ++ ',' :: (f2 ++ ',' :: (f3 ++ ',' :: tl)))) =
      f0 :: f1 :: f2 :: f3 :: splitComma tl := by
  rw [splitComma_field _ _ h0, splitComma_field _ _ h1, splitComma_field _ _ h2,
    splitComma_field _ _ h3]

theorem serialize_data_append (t : AccessTokens) (tl : List Char) :
    (serializeToken t).data ++ tl =
      t.access_token.data ++ ',' :: ((refreshField t).data ++ ',' ::
        ((expiresField t).data ++ ',' :: (t.created_timestamp.data ++ ',' :: tl))) := by
  simp [serializeToken, data_append, comma_data, List.append_assoc]

theorem writeOver_data (s : String) (old : Option String) :
    ∃ tl, (writeOver s old).data = s.data ++ tl := by
  cases old with
  | none => exact ⟨[], by simp [writeOver]⟩
  | some o => exact ⟨o.data.drop s.data.length, by simp [writeOver, data_append]⟩

theorem parseI64_intToDecimal_pos (i : Int) (h0 : 0 ≤ i)
    (h1 : i ≤ (i64MaxNat : Int)) :
    parseI64 (intToDecimal i) = some i := by
  unfold intToDecimal
  rw [if_neg (by omega)]
  rw [parseI64_natDecimal i.toNat (by omega)]
  simp [Int.toNat_of_nonneg h0]

/-- Round trip of the access-token slot: storing a serialization-faithful
token over any prior slot content (including longer leftover content — the
parser only reads the first four comma-separated fields) and loading again
returns the same token. -/
theorem store_get_roundtrip (t : AccessTokens) (fs : FS) (h : wfToken t = true) :
    get_access_token (store_access_token t fs) = TokenReadResult.ok t := by
  unfold wfToken at h
  simp only [Bool.and_eq_true] at h
  obtain ⟨⟨⟨h0, h1⟩, h2⟩, h3⟩ := h
  have hc0 : ',' ∉ t.access_token.data := all_ne_comma h0
  have hc3 : ',' ∉ t.created_timestamp.data := all_ne_comma h3
  have hc2 : ',' ∉ (expiresField t).data := comma_not_mem_intToDecimal _
  have hc1 : ',' ∉ (refreshField t).data := by
    unfold refreshField
    cases hr : t.refresh_token with
    | none => simp
    | some r =>
      rw [hr] at h1
      simp only [Bool.and_eq_true] at h1
      exact all_ne_comma h1.2
  obtain ⟨tl, hdata⟩ := writeOver_data (serializeToken t) fs.token
  have hsplit : splitCommaStr (writeOver (serializeToken t) fs.token) =
      t.access_token :: refreshField t :: expiresField t ::
        t.created_timestamp :: (splitComma tl).map String.mk := by
    unfold splitCommaStr
    rw [hdata, serialize_data_append, splitComma_four _ _ _ _ _ hc0 hc1 hc2 hc3]
    simp [mk_data]
  have hparse : parseI64 (expiresField t) =
      some (match t.expires_in with | some d => d.secs | none => 0) := by
    unfold expiresField
    cases he : t.expires_in with
    | none => exact parseI64_intToDecimal_pos 0 (by omega) (by norm_num)
    | some d =>
      rw [he] at h2
      simp only [Bool.and_eq_true, decide_eq_true_eq] at h2
      exact parseI64_intToDecimal_pos d.secs (le_of_lt h2.1) h2.2
  show get_access_token
      { fs with token := some (writeOver (serializeToken t) fs.token) } = _
  unfold get_access_token
  simp only [hsplit, hparse]
  cases he : t.expires_in with
  | none =>
    cases hr : t.refresh_token with
    | none =>
      simp only [refreshField, hr, reduceIte, gt_iff_lt, lt_self_iff_false]
      cases t
      simp_all
    | some r =>
      rw [hr] at h1
      simp only [Bool.and_eq_true, bne_iff_ne, ne_eq] at h1
      simp only [refreshField, hr, ne_eq, h1.1, not_false_iff, if_pos,
        gt_iff_lt, lt_self_iff_false, reduceIte]
      cases t
      simp_all
  | some d =>
    rw [he] at h2
    simp only [Bool.and_eq_true, decide_eq_true_eq] at h2
    cases hr : t.refresh_token with
    | none =>
      simp only [refreshField, hr, reduceIte, gt_iff_lt, h2.1, if_pos]
      cases t
      cases d
      simp_all
    | some r =>
      rw [hr] at h1
      simp only [Bool.and_eq_true, bne_iff_ne, ne_eq] at h1
      simp only [refreshField, hr, ne_eq, h1.1, not_false_iff, if_pos,
        gt_iff_lt, h2.1, reduceIte]
      cases t
      cases d
      simp_all

/-! ## Rotation lemmas -/

theorem rotateLoop_ok (old_password new_password : String)
    (l : List EncCredentials)
    (h : ∀ e ∈ l, (e.decrypt old_password).isOk = true) :
    rotateLoop old_password new_password l =
      (Except.ok (), l.map (reenc old_password new_password)) := by
  induction l with
  | nil => rfl
  | cons e rest ih =>
    have he := h e (List.mem_cons_self e rest)
    cases hd : e.decrypt old_password with
    | error er => rw [hd] at he; simp [Except.isOk, Except.toBool] at he
    | ok d =>
      have ht : ∀ x ∈ rest, (x.decrypt old_password).isOk = true := fun x hx =>
        h x (List.mem_cons_of_mem e hx)
      simp only [rotateLoop, hd, ih ht, List.map_cons, reenc]

theorem rotateLoop_err (old_password new_password : String)
    (l : List EncCredentials)
    (h : ∃ e ∈ l, (e.decrypt old_password).isOk = false) :
    (rotateLoop old_password new_password l).1 =
      Except.error CryptoErr.wrongPassphrase := by
  induction l with
  | nil => simp at h
  | cons e rest ih =>
    cases hd : e.decrypt old_password with
    | error er =>
      cases er
      simp [rotateLoop, hd]
    | ok d =>
      have hrest : ∃ x ∈ rest, (x.decrypt old_password).isOk = false := by
        rcases h with ⟨x, hx, hfail⟩
        rcases List.mem_cons.mp hx with rfl | hx'
        · rw [hd] at hfail; simp [Except.isOk, Except.toBool] at hfail
        · exact ⟨x, hx', hfail⟩
      simp only [rotateLoop, hd, ih hrest]

theorem map_const_writeTemp (l : List EncCredentials) :
    l.map (fun _ => Ev.writeTemp) = List.replicate l.length Ev.writeTemp :=
  List.map_const' l Ev.writeTemp

theorem success_trace_get_saveHash (k : Nat)
    (i : Fin (List.replicate k Ev.writeTemp ++ [Ev.saveHash, Ev.renameStore]).length)
    (h : (List.replicate k Ev.writeTemp ++ [Ev.saveHash, Ev.renameStore]).get i = Ev.saveHash) :
    (i : Nat) = k := by
  have hlen : (List.replicate k Ev.writeTemp ++ [Ev.saveHash, Ev.renameStore]).length
      = k + 2 := by simp
  have hik : (i : Nat) < k + 2 := hlen ▸ i.isLt
  rw [List.get_eq_getElem] at h
  by_cases hk : (i : Nat) < k
  · rw [List.getElem_append_left (by simpa using hk)] at h
    rw [List.getElem_replicate] at h
    exact absurd h (by decide)
  · rw [List.getElem_append_right (by simpa using hk)] at h
    simp only [List.length_replicate] at h
    have h01 : (i : Nat) - k = 0 ∨ (i : Nat) - k = 1 := by omega
    rcases h01 with h0 | h1
    · omega
    · simp only [h1] at h
      simp at h

theorem success_trace_get_rename (k : Nat)
    (i : Fin (List.replicate k Ev.writeTemp ++ [Ev.saveHash, Ev.renameStore]).length)
    (h : (List.replicate k Ev.writeTemp ++ [Ev.saveHash, Ev.renameStore]).get i =
      Ev.renameStore) :
    (i : Nat) = k + 1 := by
  have hlen : (List.replicate k Ev.writeTemp ++ [Ev.saveHash, Ev.renameStore]).length
      = k + 2 := by simp
  have hik : (i : Nat) < k + 2 := hlen ▸ i.isLt
  rw [List.get_eq_getElem] at h
  by_cases hk : (i : Nat) < k
  · rw [List.getElem_append_left (by simpa using hk)] at h
    rw [List.getElem_replicate] at h
    exact absurd h (by decide)
  · rw [List.getElem_append_right (by simpa using hk)] at h
    simp only [List.length_replicate] at h
    have h01 : (i : Nat) - k = 0 ∨ (i : Nat) - k = 1 := by omega
    rcases h01 with h0 | h1
    · simp only [h0] at h
      simp at h
    · omega

theorem success_trace_get_writeTemp (k : Nat)
    (j : Fin (List.replicate k Ev.writeTemp ++ [Ev.saveHash, Ev.renameStore]).length)
    (h : (List.replicate k Ev.writeTemp ++ [Ev.saveHash, Ev.renameStore]).get j =
      Ev.writeTemp) :
    (j : Nat) < k := by
  have hlen : (List.replicate k Ev.writeTemp ++ [Ev.saveHash, Ev.renameStore]).length
      = k + 2 := by simp
  have hjk : (j : Nat) < k + 2 := hlen ▸ j.isLt
  rw [List.get_eq_getElem] at h
  by_cases hk : (j : Nat) < k
  · exact hk
  · rw [List.getElem_append_right (by simpa using hk)] at h
    simp only [List.length_replicate] at h
    have h01 : (j : Nat) - k = 0 ∨ (j : Nat) - k = 1 := by omega
    rcases h01 with h0 | h1
    · simp only [h0] at h
      simp at h
    · simp only [h1] at h
      simp at h

theorem reenc_service (old_password new_password : String) (e : EncCredentials) :
    (reenc old_password new_password e).service = e.service := by
  rcases e with ⟨s, u, ⟨k, p⟩⟩
  unfold reenc EncCredentials.decrypt Credentials.encrypt
  by_cases hk : k = old_password <;> simp [hk]

theorem reenc_username (old_password new_password : String) (e : EncCredentials) :
    (reenc old_password new_password e).username = e.username := by
  rcases e with ⟨s, u, ⟨k, p⟩⟩
  unfold reenc EncCredentials.decrypt Credentials.encrypt
  by_cases hk : k = old_password <;> simp [hk]

/-! ## Claim theorems -/

/-- Claim C1: invoking `update_master_password` with an old passphrase under
which some record fails to decrypt returns `WrongPassphrase` before any
destructive write: `.store` still holds exactly the original records,
`.master_pwd` is unchanged, and neither the hash save nor the rename event
occurred. -/
theorem c1_rotation_wrong_passphrase_aborts
    (old_password new_password : String) (fs : FS)
    (h : ∃ e ∈ fs.store, (e.decrypt old_password).isOk = false) :
    (update_master_password old_password new_password fs).1 =
      Except.error CryptoErr.wrongPassphrase ∧
    (update_master_password old_password new_password fs).2.1.store = fs.store ∧
    (update_master_password old_password new_password fs).2.1.masterHash =
      fs.masterHash ∧
    Ev.saveHash ∉ (update_master_password old_password new_password fs).2.2 ∧
    Ev.renameStore ∉ (update_master_password old_password new_password fs).2.2 := by
  have herr := rotateLoop_err old_password new_password fs.store h
  simp only [update_master_password, herr]
  refine ⟨trivial, trivial, trivial, ?_, ?_⟩ <;>
    · intro hm
      rcases List.mem_map.mp hm with ⟨x, _, hx⟩
      exact absurd hx (by decide)

theorem c1_witness :
    (∃ e ∈ ([⟨"s", "u", Cipher.enc "right" "pw"⟩] : List EncCredentials),
      (e.decrypt "wrong").isOk = false) ∧
    (update_master_password "wrong" "new"
        ⟨[⟨"s", "u", Cipher.enc "right" "pw"⟩], none,
          some (BcryptHash.hashOf "right"), none⟩).1 =
      Except.error CryptoErr.wrongPassphrase :=
  ⟨by decide,
   (c1_rotation_wrong_passphrase_aborts "wrong" "new"
     ⟨[⟨"s", "u", Cipher.enc "right" "pw"⟩], none,
       some (BcryptHash.hashOf "right"), none⟩ (by decide)).1⟩

/-- Claim C9: a successful rotation maps each record in place — the rewritten
store is exactly the element-wise re-encryption of the original store, so the
record count, the insertion order and the `service` and `username` of every
record
are preserved. -/
theorem c9_rotation_preserves_order
    (old_password new_password : String) (fs : FS)
    (h : ∀ e ∈ fs.store, (e.decrypt old_password).isOk = true) :
    (update_master_password old_password new_password fs).1 = Except.ok true ∧
    (update_master_password old_password new_password fs).2.1.store =
      fs.store.map (reenc old_password new_password) ∧
    (update_master_password old_password new_password fs).2.1.store.length =
      fs.store.length ∧
    (update_master_password old_password new_password fs).2.1.store.map
      EncCredentials.service = fs.store.map EncCredentials.service ∧
    (update_master_password old_password new_password fs).2.1.store.map
      EncCredentials.username = fs.store.map EncCredentials.username := by
  have hok := rotateLoop_ok old_password new_password fs.store h
  simp only [update_master_password, hok]
  refine ⟨trivial, trivial, by simp, ?_, ?_⟩
  · rw [List.map_map]
    exact List.map_congr_left fun e _ => reenc_service old_password new_password e
  · rw [List.map_map]
    exact List.map_congr_left fun e _ => reenc_username old_password new_password e

theorem c9_witness :
    (∀ e ∈ ([⟨"s1", "u1", Cipher.enc "old" "pw1"⟩,
             ⟨"s2", "u2", Cipher.enc "old" "pw2"⟩] : List EncCredentials),
      (e.decrypt "old").isOk = true) ∧
    (update_master_password "old" "new"
        ⟨[⟨"s1", "u1", Cipher.enc "old" "pw1"⟩,
          ⟨"s2", "u2", Cipher.enc "old" "pw2"⟩], none,
          some (BcryptHash.hashOf "old"), none⟩).2.1.store =
      ([⟨"s1", "u1", Cipher.enc "old" "pw1"⟩,
        ⟨"s2", "u2", Cipher.enc "old" "pw2"⟩] : List EncCredentials).map
        (reenc "old" "new") :=
  ⟨by decide,
   (c9_rotation_preserves_order "old" "new"
     ⟨[⟨"s1", "u1", Cipher.enc "old" "pw1"⟩,
       ⟨"s2", "u2", Cipher.enc "old" "pw2"⟩], none,
       some (BcryptHash.hashOf "old"), none⟩ (by decide)).2.1⟩

/-- Claim C10 (implicit): with no stored master-passphrase hash and
`store_if_new = false`, `verify_master_password` reports any candidate as
verified (`Ok(true)`) and persists nothing. -/
theorem c10_uninitialized_verify_reports_true
    (candidate retyped : String) (fs : FS) (h : fs.masterHash = none) :
    verify_master_password candidate false retyped fs = (Except.ok true, fs) := by
  unfold verify_master_password
  simp [h]

theorem c10_witness :
    (⟨[], none, none, none⟩ : FS).masterHash = none ∧
    verify_master_password "anything" false "other" ⟨[], none, none, none⟩ =
      (Except.ok true, (⟨[], none, none, none⟩ : FS)) :=
  ⟨rfl, c10_uninitialized_verify_reports_true "anything" "other"
    ⟨[], none, none, none⟩ rfl⟩

/-- Claim C8: in the uninitialized state with registration requested,
`verify_master_password` persists the hash of the candidate exactly when the
re-entered confirmation matches; on mismatch it fails with the mismatch error
and leaves the state untouched (no hash created). -/
theorem c8_registration_confirmation
    (candidate retyped : String) (fs : FS) (h : fs.masterHash = none) :
    (retyped = candidate →
      verify_master_password candidate true retyped fs =
        (Except.ok true,
         { fs with masterHash := some (BcryptHash.hashOf candidate) })) ∧
    (retyped ≠ candidate →
      verify_master_password candidate true retyped fs =
        (Except.error "Passwords did not match", fs)) := by
  unfold verify_master_password save_master_password
  rw [h]
  constructor
  · intro he
    simp [he]
  · intro hne
    rw [if_pos rfl, if_neg fun hc => hne hc.symm]

theorem c8_witness :
    verify_master_password "pw" true "pw" ⟨[], none, none, none⟩ =
      (Except.ok true, ⟨[], none, some (BcryptHash.hashOf "pw"), none⟩) :=
  (c8_registration_confirmation "pw" "pw" ⟨[], none, none, none⟩ rfl).1 rfl

/-- Claim C7: when the access-token file is absent, `get_access_token` fails
with the message directing the user to log in; the embedding of the function
is read-only (the source opens with `create_new(false)` and never writes), so
no slot is created. -/
theorem c7_load_without_slot (fs : FS) (h : fs.token = none) :
    get_access_token fs =
      TokenReadResult.err "Please login first with: passlane -l" := by
  unfold get_access_token
  rw [h]

theorem c7_witness :
    (⟨[], none, none, none⟩ : FS).token = none ∧
    get_access_token ⟨[], none, none, none⟩ =
      TokenReadResult.err "Please login first with: passlane -l" :=
  ⟨rfl, c7_load_without_slot ⟨[], none, none, none⟩ rfl⟩

/-- Claim C3 is a code bug: at this concrete input the store-level rotation
fails with `WrongPassphrase`, yet the facade `actions::update_master_password`
(src/actions.rs:399 discards the `Result`) returns `Ok(true)`, so the failure
is swallowed instead of propagated. -/
theorem c3_facade_swallows_store_failure :
    (update_master_password "wrong" "new"
        ⟨[⟨"s", "u", Cipher.enc "right" "pw"⟩], none,
          some (BcryptHash.hashOf "right"), none⟩).1 =
      Except.error CryptoErr.wrongPassphrase ∧
    actions_update_master_password
        (fun _ _ => Except.error CryptoErr.wrongPassphrase) "wrong" "new"
        ⟨[⟨"s", "u", Cipher.enc "right" "pw"⟩], none,
          some (BcryptHash.hashOf "right"), none⟩ =
      (Except.ok true,
       ⟨[⟨"s", "u", Cipher.enc "right" "pw"⟩], some [],
         some (BcryptHash.hashOf "right"), none⟩) := by
  decide

/-- Claim C2 counterexample: on a one-record store with the correct old
passphrase, the rotation trace is `[writeTemp, saveHash, renameStore]` — the
hash overwrite happens and the rename happens, but the rename does NOT precede
the hash overwrite, refuting the claim at this input. -/
theorem c2_counterexample :
    Ev.saveHash ∈ (update_master_password "right" "new"
        ⟨[⟨"s", "u", Cipher.enc "right" "pw"⟩], none,
          some (BcryptHash.hashOf "right"), none⟩).2.2 ∧
    Ev.renameStore ∈ (update_master_password "right" "new"
        ⟨[⟨"s", "u", Cipher.enc "right" "pw"⟩], none,
          some (BcryptHash.hashOf "right"), none⟩).2.2 ∧
    ¬ renameBeforeHash (update_master_password "right" "new"
        ⟨[⟨"s", "u", Cipher.enc "right" "pw"⟩], none,
          some (BcryptHash.hashOf "right"), none⟩).2.2 := by
  decide

/-- Claim C2 amended: in every rotation run the hash overwrite precedes the
rename (the order in the code is hash first, then rename — the reverse of the
claim); both events occur exactly when the rotation succeeds; the hash is
saved only after every record has been re-encrypted to the temp file; and on
failure neither the stored hash nor the store changes. -/
theorem c2_amended_hash_saved_before_rename
    (old_password new_password : String) (fs : FS) :
    hashBeforeRename (update_master_password old_password new_password fs).2.2 ∧
    (Ev.saveHash ∈ (update_master_password old_password new_password fs).2.2 ↔
      (update_master_password old_password new_password fs).1 = Except.ok true) ∧
    (Ev.renameStore ∈ (update_master_password old_password new_password fs).2.2 ↔
      (update_master_password old_password new_password fs).1 = Except.ok true) ∧
    writeTempsBeforeHash
      (update_master_password old_password new_password fs).2.2 ∧
    ((update_master_password old_password new_password fs).1 ≠ Except.ok true →
      (update_master_password old_password new_password fs).2.1.masterHash =
        fs.masterHash ∧
      (update_master_password old_password new_password fs).2.1.store =
        fs.store) := by
  cases hst : (rotateLoop old_password new_password fs.store).1 with
  | error er =>
    have htr : (update_master_password old_password new_password fs).2.2 =
        List.replicate (rotateLoop old_password new_password fs.store).2.length
          Ev.writeTemp := by
      simp only [update_master_password, hst, map_const_writeTemp]
    have hres : (update_master_password old_password new_password fs).1 =
        Except.error er := by
      simp only [update_master_password, hst]
    have hfs : (update_master_password old_password new_password fs).2.1 =
        { fs with
            storeNew := some (rotateLoop old_password new_password fs.store).2 } := by
      simp only [update_master_password, hst]
    rw [htr, hres, hfs]
    refine ⟨?_, ?_, ?_, ?_, fun _ => ⟨rfl, rfl⟩⟩
    · intro i j hi hj
      rw [List.get_eq_getElem, List.getElem_replicate] at hi
      simp at hi
    · simp [List.mem_replicate]
    · simp [List.mem_replicate]
    · intro i j hi hj
      rw [List.get_eq_getElem, List.getElem_replicate] at hi
      simp at hi
  | ok u =>
    have htr : (update_master_password old_password new_password fs).2.2 =
        List.replicate (rotateLoop old_password new_password fs.store).2.length
          Ev.writeTemp ++ [Ev.saveHash, Ev.renameStore] := by
      simp only [update_master_password, hst, map_const_writeTemp]
    have hres : (update_master_password old_password new_password fs).1 =
        Except.ok true := by
      simp only [update_master_password, hst]
    rw [htr, hres]
    refine ⟨?_, by simp, by simp, ?_, fun hne => absurd rfl hne⟩
    · intro i j hi hj
      have h1 := success_trace_get_saveHash _ i hi
      have h2 := success_trace_get_rename _ j hj
      omega
    · intro i j hi hj
      have h1 := success_trace_get_saveHash _ i hi
      have h2 := success_trace_get_writeTemp _ j hj
      omega

/-- Claim C5 counterexample: the token with `refresh_token = Some("")` stores
and loads back as a token with `refresh_token = None` — not equal to the
stored token, refuting the claim at this input (the serialized empty string is
the absence marker). -/
theorem c5_counterexample :
    get_access_token (store_access_token ⟨"a", some "", none, "t"⟩
        ⟨[], none, none, none⟩) =
      TokenReadResult.ok ⟨"a", none, none, "t"⟩ ∧
    TokenReadResult.ok (⟨"a", none, none, "t"⟩ : AccessTokens) ≠
      TokenReadResult.ok ⟨"a", some "", none, "t"⟩ := by
  decide

/-- Claim C5 amended: for every serialization-faithful token (comma-free
string fields, refresh token not `Some("")`, expiry absent or a positive
number of `i64` seconds) and EVERY prior content of the token slot,
`store_access_token` writes the serialization at the start of the slot and a
subsequent `get_access_token` returns a token equal to the stored one.  (A
longer prior content leaves leftover bytes after the written serialization,
but the parser reads only the first four comma-separated fields.) -/
theorem c5_amended_store_then_load_roundtrip (t : AccessTokens) (fs : FS)
    (h : wfToken t = true) :
    get_access_token (store_access_token t fs) = TokenReadResult.ok t :=
  store_get_roundtrip t fs h

theorem c5_witness :
    wfToken ⟨"at", some "rt", some ⟨3600⟩, "ts"⟩ = true ∧
    get_access_token (store_access_token ⟨"at", some "rt", some ⟨3600⟩, "ts"⟩
        ⟨[], none, none, some "AAAAAAAAAAAAAAAAAAAAA,BBBBBBBB,7200,T1,"⟩) =
      TokenReadResult.ok ⟨"at", some "rt", some ⟨3600⟩, "ts"⟩ :=
  ⟨by decide,
   c5_amended_store_then_load_roundtrip ⟨"at", some "rt", some ⟨3600⟩, "ts"⟩
     ⟨[], none, none, some "AAAAAAAAAAAAAAAAAAAAA,BBBBBBBB,7200,T1,"⟩ (by decide)⟩

/-- Claim C6 counterexample: on an empty (present but zero-byte) token file,
`get_access_token` panics — `parts[2]` is indexed out of bounds — rather than
returning an error, refuting "never crashes/panics on malformed input". -/
theorem c6_counterexample :
    get_access_token ⟨[], none, none, some ""⟩ = TokenReadResult.panicked := by
  decide

/-- Claim C6 amended: whenever the token file content splits into at least
four comma-separated fields, `get_access_token` returns a `Result` — `Ok` or
an error (non-numeric expiry) — and does not panic.  The unrestricted claim
fails because some contents with fewer fields (such as the empty file of the
counterexample) panic on the unchecked `parts[2]`/`parts[3]` indexing. -/
theorem c6_no_panic_with_four_fields (fs : FS) (content : String)
    (h : fs.token = some content) (h4 : 4 ≤ (splitCommaStr content).length) :
    get_access_token fs ≠ TokenReadResult.panicked := by
  unfold get_access_token
  rw [h]
  rcases hl : splitCommaStr content with _ | ⟨p0, _ | ⟨p1, _ | ⟨p2, _ | ⟨p3, rest⟩⟩⟩⟩
  · rw [hl] at h4; simp at h4
  · rw [hl] at h4; simp at h4
  · rw [hl] at h4; simp at h4
  · rw [hl] at h4; simp at h4
  · simp only [hl]
    cases parseI64 p2 <;> simp

theorem c6_witness :
    4 ≤ (splitCommaStr "a,b,5,t,").length ∧
    get_access_token ⟨[], none, none, some "a,b,5,t,"⟩ ≠
      TokenReadResult.panicked :=
  ⟨by decide,
   c6_no_panic_with_four_fields ⟨[], none, none, some "a,b,5,t,"⟩ "a,b,5,t,"
     rfl (by decide)⟩

/-- Claim C4 counterexample: with an expired stored token, a failing refresh
and a login returning `T2 = ⟨"a", Some(""), None, "t"⟩`, the action returns
`T2` but the persisted slot afterward does NOT read back as `T2` (the empty
refresh token degrades to `None`), refuting "the persisted token slot
afterward equals T2" as stated for every `T2`. -/
theorem c4_counterexample :
    (get_access_token_action (fun _ => 0) 100
        (fun _ => Except.error "refresh rejected")
        (Except.ok ⟨"a", some "", none, "t"⟩)
        ⟨[], none, none, some "x,,5,0,"⟩).1 =
      TokenReadResult.ok ⟨"a", some "", none, "t"⟩ ∧
    get_access_token (get_access_token_action (fun _ => 0) 100
        (fun _ => Except.error "refresh rejected")
        (Except.ok ⟨"a", some "", none, "t"⟩)
        ⟨[], none, none, some "x,,5,0,"⟩).2 ≠
      TokenReadResult.ok ⟨"a", some "", none, "t"⟩ := by
  decide

/-- Claim C4 amended: when the stored token loads as `t` and `t` is expired,
a failing refresh falls back to login; with login returning `t2` the action
returns `t2`, and — provided `t2` is serialization-faithful — the persisted
slot afterward loads back as exactly `t2`.  When `t` is not expired the
action returns `t` unchanged and does not modify the slot. -/
theorem c4_refresh_fallback (tsVal : String → Int) (now : Int)
    (refreshFn : AccessTokens → Except String AccessTokens)
    (loginFn : Except String AccessTokens) (t : AccessTokens) (fs : FS)
    (hload : get_access_token fs = TokenReadResult.ok t) :
    (t.is_expired tsVal now = true →
      ∀ emsg, refreshFn t = Except.error emsg →
      ∀ t2, loginFn = Except.ok t2 →
        (get_access_token_action tsVal now refreshFn loginFn fs).1 =
          TokenReadResult.ok t2 ∧
        (wfToken t2 = true →
          get_access_token
            (get_access_token_action tsVal now refreshFn loginFn fs).2 =
            TokenReadResult.ok t2)) ∧
    (t.is_expired tsVal now = false →
      get_access_token_action tsVal now refreshFn loginFn fs =
        (TokenReadResult.ok t, fs)) := by
  have hsome : has_logged_in fs = true := by
    unfold has_logged_in
    cases ht : fs.token with
    | none =>
      unfold get_access_token at hload
      rw [ht] at hload
      simp at hload
    | some c => rfl
  unfold get_access_token_action
  rw [hsome, hload]
  simp only [Bool.true_eq_false, reduceIte]
  constructor
  · intro hexp emsg herr t2 hlog
    rw [hexp, herr, hlog]
    simp only [true_and]
    refine ⟨rfl, fun hwf => ?_⟩
    exact store_get_roundtrip t2 fs hwf
  · intro hexp
    rw [hexp]
    simp

theorem c4_witness :
    (get_access_token_action (fun _ => 0) 100
        (fun _ => Except.error "refresh rejected")
        (Except.ok ⟨"y", some "r", some ⟨7⟩, "1"⟩)
        ⟨[], none, none, some "x,,5,0,"⟩).1 =
      TokenReadResult.ok ⟨"y", some "r", some ⟨7⟩, "1"⟩ ∧
    get_access_token (get_access_token_action (fun _ => 0) 100
        (fun _ => Except.error "refresh rejected")
        (Except.ok ⟨"y", some "r", some ⟨7⟩, "1"⟩)
        ⟨[], none, none, some "x,,5,0,"⟩).2 =
      TokenReadResult.ok ⟨"y", some "r", some ⟨7⟩, "1"⟩ := by
  have h := c4_refresh_fallback (fun _ => 0) 100
    (fun _ => Except.error "refresh rejected")
    (Except.ok ⟨"y", some "r", some ⟨7⟩, "1"⟩)
    ⟨"x", none, some ⟨5⟩, "0"⟩ ⟨[], none, none, some "x,,5,0,"⟩ (by decide)
  have h2 := h.1 (by decide) "refresh rejected" rfl
    ⟨"y", some "r", some ⟨7⟩, "1"⟩ rfl
  exact ⟨h2.1, h2.2 (by decide)⟩

end Genpass
